import Mathlib

/-!
Shallow embedding of the host-side controllers of the Pi-Zero-SKR-Pico-PUWinder
repository (`pi_zero/main_controller.py`, `pi_zero/fluidnc_controller.py`,
`pi_zero/uart_api.py`, `Code-snippets/python_snippets.py`) together with the
parts of the Pico firmware safety logic that the repository only documents
(those parts are modelled from the specification and are marked as such).

Strings are embedded as `List Char`; Python exceptions as `Except PyErr`;
the commands written to the UART link as a structured type `GCmd` (the
numeric payload of a command is what matters to every property below, not
its decimal rendering).
-/

/-- Python strings, embedded as lists of characters. -/
abbrev Str := List Char

/-- The whitespace test used by Python `str.strip()` / `str.split()`. -/
def isWs (c : Char) : Bool := c == ' ' || c == '\t' || c == '\n' || c == '\r'

/-- Characters of a plain decimal numeral: a digit or the decimal point.
Used to state which characters may appear in the numeric fields of a
`STATUS` response. -/
def isNumChar (c : Char) : Bool :=
  ['0', '1', '2', '3', '4', '5', '6', '7', '8', '9', '.'].contains c

/-- Model of Python `str.strip()`. -/
def pyStrip (s : Str) : Str := ((s.dropWhile isWs).reverse.dropWhile isWs).reverse

/-- Model of Python `str.upper()` (ASCII). -/
def pyUpper (s : Str) : Str := s.map Char.toUpper

/-- Model of the Python substring test `sub in s`. -/
def pyIn (sub : Str) : Str → Bool
  | [] => sub.isEmpty
  | c :: rest => sub.isPrefixOf (c :: rest) || pyIn sub rest

/-- Fuelled worker for the model of Python `str.split(sep)` (non-empty `sep`).
The result is the first field paired with the remaining fields.  One unit of
fuel is spent per character position, so `s.length` fuel always suffices; the
fuel makes the recursion structural and hence kernel-evaluable. -/
def pySplitAuxF (sep : Str) : Nat → Str → Str × List Str
  | _, [] => ([], [])
  | 0, s => (s, [])
  | fuel + 1, c :: rest =>
    if sep ≠ [] ∧ sep.isPrefixOf (c :: rest) then
      let r := pySplitAuxF sep fuel (rest.drop (sep.length - 1))
      ([], r.1 :: r.2)
    else
      let r := pySplitAuxF sep fuel rest
      (c :: r.1, r.2)

/-- Model of Python `str.split(sep)`, as first field plus remaining fields. -/
def pySplitAux (sep s : Str) : Str × List Str := pySplitAuxF sep s.length s

/-- Model of Python `str.split(sep)` for a non-empty separator. -/
def pySplit (sep s : Str) : List Str := (pySplitAux sep s).1 :: (pySplitAux sep s).2

/-- Fuelled worker for the model of Python `str.split()` (split on runs of
whitespace, dropping empty fields). -/
def pySplitWsF : Nat → Str → List Str
  | _, [] => []
  | 0, s => [s]
  | fuel + 1, c :: rest =>
    if isWs c then pySplitWsF fuel rest
    else (c :: rest.takeWhile (fun d => !isWs d)) :: pySplitWsF fuel (rest.dropWhile (fun d => !isWs d))

/-- Model of Python `str.split()` with no separator argument. -/
def pySplitWs (s : Str) : List Str := pySplitWsF s.length s

/-- The Python exceptions that the embedded code can raise. -/
inductive PyErr where
  | indexError
  | valueError
  | typeError
deriving DecidableEq

instance {ε α : Type} [DecidableEq ε] [DecidableEq α] : DecidableEq (Except ε α) :=
  fun a b =>
    match a, b with
    | .ok x, .ok y => if h : x = y then isTrue (by rw [h]) else isFalse (by simp [h])
    | .error x, .error y => if h : x = y then isTrue (by rw [h]) else isFalse (by simp [h])
    | .ok _, .error _ => isFalse (by simp)
    | .error _, .ok _ => isFalse (by simp)

/-- Model of Python list indexing `l[n]`, which raises `IndexError` out of
range. -/
def listGet {α : Type} (l : List α) (n : Nat) : Except PyErr α :=
  match l.get? n with
  | some a => .ok a
  | none => .error .indexError

/-- Value of a digit string read in base 10. -/
def digitsVal (l : Str) : ℕ := l.foldl (fun acc c => acc * 10 + (c.toNat - 48)) 0

/-- Model of Python `float(s)` on plain decimal literals: optional surrounding
whitespace, an optional sign, then digits with at most one decimal point
(digits required on at least one side).  Anything else raises `ValueError`. -/
def pyFloat (s : Str) : Except PyErr ℚ :=
  let t := pyStrip s
  let su : ℤ × Str :=
    match t with
    | '+' :: u => (1, u)
    | '-' :: u => (-1, u)
    | _ => (1, t)
  match pySplit ['.'] su.2 with
  | [ip] =>
    if ip ≠ [] ∧ ip.all Char.isDigit then
      .ok (mkRat (su.1 * (digitsVal ip : ℤ)) 1)
    else .error .valueError
  | [ip, fp] =>
    if ip ++ fp ≠ [] ∧ (ip ++ fp).all Char.isDigit then
      .ok (mkRat (su.1 * ((digitsVal ip * 10 ^ fp.length + digitsVal fp : ℕ) : ℤ))
        (10 ^ fp.length))
    else .error .valueError
  | _ => .error .valueError

/-- Model of Python `max` on two numbers. -/
def pyMax (a b : ℚ) : ℚ := if a ≤ b then b else a

/-- Model of Python `min` on two numbers. -/
def pyMin (a b : ℚ) : ℚ := if b ≤ a then b else a

/-- The commands the host controllers write to the UART link, in structured
form (the numeric parameter of a command rather than its decimal rendering). -/
inductive GCmd where
  | M3 (s : ℚ)
  | M4 (s : ℚ)
  | M5
  | G1 (y : ℚ) (f : Option ℚ)
  | G28
  | M0
  | M1
  | M112
  | M410
  | M999
  | M16
  | M17
  | STATUS
deriving DecidableEq

/-- Environment of a `GCodeAPI` call: whether the API object is connected and
whether the UART exchange produces a response line. -/
structure ApiEnv where
  connected : Bool
  uart_ok : Bool
deriving DecidableEq

/-- Model of `GCodeAPI.send_gcode` (`pi_zero/main_controller.py:99`): fails
without sending when not connected; a structured, recognised command always
passes the parse / UNKNOWN check; otherwise the command is written and the
result is whether a response line arrived.  Returns the command put on the
wire (if any) and the boolean result. -/
def GCodeAPI.send_gcode (env : ApiEnv) (cmd : GCmd) : Option GCmd × Bool :=
  if env.connected then (some cmd, env.uart_ok) else (none, false)

/-- Model of `GCodeAPI.set_spindle_rpm` (`pi_zero/main_controller.py:113`):
clamps the requested RPM into `[0, 3000]`, then sends `M3 S`/`M4 S` for a
positive clamped value and `M5` otherwise. -/
def GCodeAPI.set_spindle_rpm (env : ApiEnv) (rpm : ℚ) (direction : Str) :
    Option GCmd × Bool :=
  let rpm2 := pyMax 0 (pyMin 3000 rpm)
  let cmd :=
    if rpm2 > 0 then
      if pyUpper direction = "CW".toList then GCmd.M3 rpm2 else GCmd.M4 rpm2
    else GCmd.M5
  GCodeAPI.send_gcode env cmd

/-- Model of the first definition of `GCodeAPI.move_traverse`
(`pi_zero/main_controller.py:129`), which clamps the feed rate into
`[10, 5000]` and sends `G1 Y F`.  In Python this definition is shadowed by
the later one at line 307 and is therefore unreachable at run time. -/
def GCodeAPI.move_traverse_shadowed (env : ApiEnv) (position feed_rate : ℚ) :
    Option GCmd × Bool :=
  let fr := pyMax 10 (pyMin 5000 feed_rate)
  GCodeAPI.send_gcode env (GCmd.G1 position (some fr))

/-- Model of the effective definition of `GCodeAPI.move_traverse`
(`pi_zero/main_controller.py:307`): sends `G1 Y` with `F = speed * 60` when a
speed is given, performing no range check on either parameter. -/
def GCodeAPI.move_traverse (env : ApiEnv) (y : ℚ) (speed : Option ℚ) :
    Option GCmd × Bool :=
  GCodeAPI.send_gcode env (GCmd.G1 y (speed.map (fun s => s * 60)))

/-- State of `SpindleController` (`Code-snippets/python_snippets.py:137` and
the identical copy in `pi_zero/main_controller.py:366`), plus the log of
commands written to its UART connection. -/
structure SpindleController where
  current_rpm : ℚ
  target_rpm : ℚ
  is_running : Bool
  direction : Str
  uart_sent : List GCmd
deriving DecidableEq

/-- Model of `SpindleController.stop`: writes `M5`, clears the running flag
and both RPM fields, and returns success (the exception branch models an I/O
failure of the environment, outside this embedding). -/
def SpindleController.stop (s : SpindleController) : Bool × SpindleController :=
  (true, { s with
    uart_sent := s.uart_sent ++ [GCmd.M5],
    is_running := false,
    current_rpm := 0,
    target_rpm := 0 })

/-- Model of `SpindleController.set_rpm`: clamps the target RPM into
`[0, 3000]`, stores the upper-cased direction, then either writes `M3 S`/`M4 S`
and sets the running flag (positive target) or calls `stop` (zero target);
returns success either way. -/
def SpindleController.set_rpm (s : SpindleController) (rpm : ℚ) (direction : Str) :
    Bool × SpindleController :=
  let s1 := { s with target_rpm := pyMax 0 (pyMin 3000 rpm), direction := pyUpper direction }
  if s1.target_rpm > 0 then
    (true, { s1 with
      uart_sent := s1.uart_sent ++
        [if pyUpper direction = "CW".toList then GCmd.M3 s1.target_rpm else GCmd.M4 s1.target_rpm],
      is_running := true })
  else
    (true, (SpindleController.stop s1).2)

/-- Iterated invocation of `SpindleController.stop`. -/
def SpindleController.stopIter : Nat → SpindleController → SpindleController
  | 0, s => s
  | n + 1, s => SpindleController.stopIter n (SpindleController.stop s).2

/-- State of `AdvancedController` (`pi_zero/fluidnc_controller.py:11`): the
machine-state attributes assigned in `__init__` plus the log of commands
successfully handed to the command protocol. -/
structure AdvancedController where
  connected : Bool
  spindle_rpm : ℚ
  spindle_direction : Str
  traverse_position : ℚ
  emergency_stop : Bool
  feed_hold : Bool
  sent : List GCmd
deriving DecidableEq

/-- Model of `AdvancedController.send_command`
(`pi_zero/fluidnc_controller.py:60`): fails without sending when not
connected; otherwise the command goes to the protocol and the result is
whether a response came back (`link`). -/
def AdvancedController.send_command (c : AdvancedController) (link : GCmd → Bool)
    (cmd : GCmd) : Bool × AdvancedController :=
  if c.connected then (link cmd, { c with sent := c.sent ++ [cmd] }) else (false, c)

/-- Model of `AdvancedController.start_spindle`
(`pi_zero/fluidnc_controller.py:133`): rejected outright when the
`emergency_stop` attribute is set; otherwise sends `M3 S`/`M4 S` and on
success records the new RPM and direction. -/
def AdvancedController.start_spindle (c : AdvancedController) (link : GCmd → Bool)
    (rpm : ℚ) (direction : Str) : Bool × AdvancedController :=
  if c.emergency_stop then (false, c)
  else
    let cmd := if pyUpper direction = "CW".toList then GCmd.M3 rpm else GCmd.M4 rpm
    let r := AdvancedController.send_command c link cmd
    if r.1 then
      (true, { r.2 with spindle_rpm := rpm, spindle_direction := pyUpper direction })
    else (false, r.2)

/-- Model of `AdvancedController.move_traverse`
(`pi_zero/fluidnc_controller.py:159`): rejected outright when the
`emergency_stop` attribute is set, and likewise when the `feed_hold`
attribute is set; otherwise sends `G1 Y F` and on success records the new
position. -/
def AdvancedController.move_traverse (c : AdvancedController) (link : GCmd → Bool)
    (position feed_rate : ℚ) : Bool × AdvancedController :=
  if c.emergency_stop then (false, c)
  else if c.feed_hold then (false, c)
  else
    let r := AdvancedController.send_command c link (GCmd.G1 position (some feed_rate))
    if r.1 then (true, { r.2 with traverse_position := position }) else (false, r.2)

/-- Model of `AdvancedController.home_all_axes`
(`pi_zero/fluidnc_controller.py:176`): rejected outright when the
`emergency_stop` attribute is set; otherwise sends `G28`. -/
def AdvancedController.home_all_axes (c : AdvancedController) (link : GCmd → Bool) :
    Bool × AdvancedController :=
  if c.emergency_stop then (false, c)
  else AdvancedController.send_command c link GCmd.G28

/-- A freshly constructed, connected `AdvancedController` whose operator has
issued a feed hold (`feed_hold` attribute set, emergency stop clear). -/
def feedHoldController : AdvancedController :=
  { connected := true, spindle_rpm := 0, spindle_direction := "CW".toList,
    traverse_position := 0, emergency_stop := false, feed_hold := true, sent := [] }

/-- The kinds a Python attribute value can have, as far as calling it is
concerned. -/
inductive PyAttr where
  | pyBool (b : Bool)
  | pyMethod
  | pyOther
deriving DecidableEq

/-- The class dictionary of `AdvancedController`
(`pi_zero/fluidnc_controller.py:11`): its methods, including
`emergency_stop` (line 109) and `feed_hold` (line 121). -/
def advancedControllerClassAttr (n : String) : Option PyAttr :=
  if n ∈ ["connect", "disconnect", "send_command", "run_sequence", "startup",
          "shutdown", "emergency_stop", "reset_from_emergency", "feed_hold",
          "resume_from_hold", "start_spindle", "stop_spindle", "move_traverse",
          "home_all_axes", "set_wire_diameter", "enable_coolant", "enable_brake",
          "enable_tension", "get_status", "interactive_mode", "show_help"] then
    some PyAttr.pyMethod
  else none

/-- The instance dictionary of an `AdvancedController` right after
`__init__` (`pi_zero/fluidnc_controller.py:16`): in particular
`emergency_stop = False` and `feed_hold = False` are plain booleans. -/
def advancedControllerInstanceAttr (n : String) : Option PyAttr :=
  if n = "protocol" then some PyAttr.pyOther
  else if n = "connected" then some (PyAttr.pyBool false)
  else if n = "spindle_rpm" then some PyAttr.pyOther
  else if n = "spindle_direction" then some PyAttr.pyOther
  else if n = "traverse_position" then some PyAttr.pyOther
  else if n = "emergency_stop" then some (PyAttr.pyBool false)
  else if n = "feed_hold" then some (PyAttr.pyBool false)
  else if n = "command_sequences" then some PyAttr.pyOther
  else none

/-- Python attribute lookup on such an instance: the instance dictionary
shadows the class dictionary. -/
def advancedControllerGetAttr (n : String) : Option PyAttr :=
  match advancedControllerInstanceAttr n with
  | some a => some a
  | none => advancedControllerClassAttr n

/-- Model of Python call syntax `obj.attr()`: only a method is callable; a
boolean (or other non-callable) raises `TypeError`, a missing attribute is
also an error. -/
def pyCall (a : Option PyAttr) : Except PyErr Unit :=
  match a with
  | some PyAttr.pyMethod => .ok ()
  | some (PyAttr.pyBool _) => .error .typeError
  | some PyAttr.pyOther => .error .typeError
  | none => .error .typeError

/-- The firmware safety states (spec section 3). -/
inductive SafetyState where
  | NORMAL
  | FEED_HOLD
  | EMERGENCY_STOPPED
deriving DecidableEq

/-- The safety-relevant command classes of the firmware interpreter. -/
inductive SafetyCmd where
  | m0
  | m1
  | m112
  | m999
  | other
deriving DecidableEq

/-- Modelled from the spec: the safety state machine of the Pico firmware
G-code interpreter (directory `pico_firmware/`, absent from `src/`; only
host-side callers, tests and documentation are present).  Spec sections 3
and 4.4: `M0` moves NORMAL to FEED_HOLD, `M1` moves FEED_HOLD back to
NORMAL, `M112` moves any state to EMERGENCY_STOPPED, and `M999` moves
EMERGENCY_STOPPED to NORMAL only if the spindle RPM has decayed to
approximately zero (`rpm ≤ eps`), otherwise it is rejected; every other
command leaves the state unchanged.  Returns the new state and whether the
command was accepted. -/
def safetyStep (st : SafetyState) (cmd : SafetyCmd) (rpm eps : ℚ) : SafetyState × Bool :=
  match cmd with
  | .m0 => if st = .NORMAL then (.FEED_HOLD, true) else (st, false)
  | .m1 => if st = .FEED_HOLD then (.NORMAL, true) else (st, false)
  | .m112 => (.EMERGENCY_STOPPED, true)
  | .m999 =>
    if st = .EMERGENCY_STOPPED then
      if rpm ≤ eps then (.NORMAL, true) else (st, false)
    else (st, false)
  | .other => (st, true)

/-- Model of `UARTAPI.get_spindle_rpm` (`pi_zero/uart_api.py:183`): given the
response line of `GET_SPINDLE_RPM` (or `none` when no response arrived),
returns `float(response.split(":")[1])` when the response contains `RPM:`
and that parse succeeds, and `0.0` in every other case (missing response,
missing marker, or a `ValueError`/`IndexError` during the parse). -/
def UARTAPI.get_spindle_rpm (response : Option Str) : ℚ :=
  match response with
  | none => 0
  | some r =>
    if pyIn "RPM:".toList r then
      match (do
        let x ← listGet (pySplit [':'] r) 1
        pyFloat x : Except PyErr ℚ) with
      | .ok q => q
      | .error _ => 0
    else 0

/-- Whether a `GET_SPINDLE_RPM` response carries a parseable `RPM:` value,
stated with the same embedded operations as the reader itself. -/
def hasParseableRPM (response : Option Str) : Bool :=
  match response with
  | none => false
  | some r =>
    pyIn "RPM:".toList r &&
      (match (do
        let x ← listGet (pySplit [':'] r) 1
        pyFloat x : Except PyErr ℚ) with
       | .ok _ => true
       | .error _ => false)

/-- Modelled from the spec: the state of the Pico firmware spindle RPM
estimator (spec sections 3 and 4.3; the firmware sources under
`pico_firmware/` are absent from `src/`). -/
structure SpindleEstimator where
  current_rpm : ℚ
  last_hall_edge_timestamp : ℕ
  stall_timeout : ℕ
deriving DecidableEq

/-- Modelled from the spec: `get_rpm()` of the firmware spindle RPM estimator
returns 0 whenever no Hall edge has arrived within the stall timeout
(timestamps and the timeout are in timer ticks), regardless of the stored
smoothed value (spec section 4.3). -/
def SpindleEstimator.get_rpm (e : SpindleEstimator) (now : ℕ) : ℚ :=
  if now - e.last_hall_edge_timestamp > e.stall_timeout then 0 else e.current_rpm

/-- A value attached to a parameter letter by the G-code line parser: the
parsed float, or the raw text when the float parse fails. -/
inductive PValue where
  | num (q : ℚ)
  | str (s : Str)
deriving DecidableEq

/-- The dictionary returned by `parse_gcode_command`. -/
structure ParsedCmd where
  ctype : Str
  number : Option Str
  command : Str
  parameters : List (Char × PValue)
deriving DecidableEq

/-- Python dict assignment `d[k] = v` on an association list (insertion order
preserved, existing key overwritten in place). -/
def dictInsert (d : List (Char × PValue)) (k : Char) (v : PValue) :
    List (Char × PValue) :=
  if d.any (fun p => p.1 == k) then
    d.map (fun p => if p.1 == k then (k, v) else p)
  else d ++ [(k, v)]

/-- The parameter-extraction loop of `parse_gcode_command`: for each token of
length at least 2 whose first character is alphabetic, bind that letter to
`float(rest)` when it parses and to the raw rest otherwise. -/
def parseParams (parts : List Str) : List (Char × PValue) :=
  parts.foldl
    (fun d part =>
      match part with
      | [] => d
      | c :: rest =>
        if rest ≠ [] ∧ c.isAlpha then
          match pyFloat rest with
          | .ok q => dictInsert d c (PValue.num q)
          | .error _ => dictInsert d c (PValue.str rest)
        else d)
    []

/-- Model of `GCodeAPI.parse_gcode_command` (`pi_zero/main_controller.py:66`,
identical to `Code-snippets/python_snippets.py:65`): strip and upper-case the
line; for a line starting with `G` or `M` take `command[1:].split()[0]` as the
command number (an `IndexError` when the split is empty) and collect the
parameter tokens; any other line yields the UNKNOWN dictionary. -/
def GCodeAPI.parse_gcode_command (command : Str) : Except PyErr ParsedCmd :=
  let cmd := pyUpper (pyStrip command)
  match cmd with
  | 'G' :: rest => do
    let cmd_num ← listGet (pySplitWs rest) 0
    .ok ⟨['G'], some cmd_num, cmd, parseParams (pySplitWs cmd).tail⟩
  | 'M' :: rest => do
    let cmd_num ← listGet (pySplitWs rest) 0
    .ok ⟨['M'], some cmd_num, cmd, parseParams (pySplitWs cmd).tail⟩
  | _ => .ok ⟨"UNKNOWN".toList, none, cmd, []⟩

/-- The record built by the `STATUS` parser; each field is present only when
the corresponding fragment was found in the response. -/
structure MachineStatus where
  spindle_rpm : Option ℚ
  spindle_running : Option Bool
  traverse_position : Option ℚ
deriving DecidableEq

/-- Model of `GCodeAPI.get_machine_status` (`pi_zero/main_controller.py:35`):
returns `none` when not connected, when no response arrived, or when the
response does not start with `STATUS:`; otherwise parses the spindle fragment
(`split("Spindle=")[1].split()[0]`, its `RPM` prefix through `float`, and the
`RUN`/`STOP` marker) and the traverse fragment
(`split("Traverse=")[1].split()[0]` up to `mm` through `float`), faithfully
propagating the `IndexError`/`ValueError` the Python code could raise. -/
def GCodeAPI.get_machine_status (connected : Bool) (response : Option Str) :
    Except PyErr (Option MachineStatus) :=
  if connected = false then .ok none
  else
    match response with
    | none => .ok none
    | some response =>
      if ("STATUS:".toList).isPrefixOf response then do
        let s0 : MachineStatus := ⟨none, none, none⟩
        let s1 ←
          if pyIn "Spindle=".toList response then do
            let part ← listGet (pySplit "Spindle=".toList response) 1
            let spindle_part ← listGet (pySplitWs part) 0
            let sA ←
              if pyIn "RPM".toList spindle_part then do
                let rpm_str ← listGet (pySplit "RPM".toList spindle_part) 0
                let q ← pyFloat rpm_str
                pure { s0 with spindle_rpm := some q }
              else pure s0
            pure
              (if pyIn "RUN".toList spindle_part then
                { sA with spindle_running := some true }
              else if pyIn "STOP".toList spindle_part then
                { sA with spindle_running := some false }
              else sA)
          else pure s0
        let s2 ←
          if pyIn "Traverse=".toList response then do
            let part ← listGet (pySplit "Traverse=".toList response) 1
            let traverse_part ← listGet (pySplitWs part) 0
            if pyIn "mm".toList traverse_part then do
              let pos_str ← listGet (pySplit "mm".toList traverse_part) 0
              let q ← pyFloat pos_str
              pure { s1 with traverse_position := some q }
            else pure s1
          else pure s1
        pure (some s2)
      else .ok none

/-- A `STATUS` response line of the fixed form
`STATUS: Spindle=<r>RPM(<rs>) Traverse=<p>mm`, written with every fragment
boundary explicit. -/
def statusResponse (r rs p : Str) : Str :=
  "STATUS: ".toList ++ "Spindle=".toList ++ r ++ "RPM".toList ++ "(".toList ++
    rs ++ ")".toList ++ " ".toList ++ "Traverse=".toList ++ p ++ "mm".toList

/-- No occurrence of `sep` begins inside `a` when `a` is followed by `s`. -/
def NoStartIn (sep a s : Str) : Prop :=
  ∀ a₁ a₂, a = a₁ ++ a₂ → a₂ ≠ [] → ¬ sep <+: (a₂ ++ s)

/-- `sep` occurs nowhere in `s` (in particular `sep` is non-empty). -/
def NoOcc (sep s : Str) : Prop :=
  ∀ a b, s = a ++ b → ¬ sep <+: b

/-- Decidable sufficient check for `NoStartIn sep a s` that is independent of
the continuation `s`: every non-empty suffix of `a` either fails to start
`sep` within `a` itself, or is too short and is not a prefix of `sep`. -/
def noStart2B (sep a : Str) : Bool :=
  a.tails.all (fun t =>
    t.isEmpty ||
      (if sep.length ≤ t.length then !(sep.isPrefixOf t) else !(t.isPrefixOf sep)))

/-- Decidable check for `NoOcc sep s` on a concrete `s`. -/
def noOccB (sep s : Str) : Bool :=
  s.tails.all (fun t => !(sep.isPrefixOf t))

/-! ### Helper lemmas -/

theorem pyMin_eq_right {a b : ℚ} (h : b ≤ a) : pyMin a b = b := by
  unfold pyMin; rw [if_pos h]

theorem pyMin_eq_left {a b : ℚ} (h : a ≤ b) : pyMin a b = a := by
  unfold pyMin
  split
  · exact le_antisymm (by assumption) h
  · rfl

theorem pyMax_eq_left {a b : ℚ} (h : b ≤ a) : pyMax a b = a := by
  unfold pyMax
  split
  · exact le_antisymm h (by assumption)
  · rfl

theorem pyMax_eq_right {a b : ℚ} (h : a ≤ b) : pyMax a b = b := by
  unfold pyMax; rw [if_pos h]

/-! ### Claim theorems for the directly checkable controllers -/

/-- C1, counterexample: requesting 5000 RPM — far above the configured
maximum of 3000 — is not rejected by `GCodeAPI.set_spindle_rpm`: the command
path silently clamps the value and sends `M3 S3000`, reporting success. -/
theorem c1_out_of_range_not_rejected :
    GCodeAPI.set_spindle_rpm ⟨true, true⟩ 5000 "CW".toList = (some (GCmd.M3 3000), true) := by
  decide

/-- C1, amended: out-of-range numeric parameters are never rejected with an
error.  `GCodeAPI.set_spindle_rpm` clamps any RPM above 3000 to 3000 and
proceeds; `SpindleController.set_rpm` does the same and still reports
success; the effective `GCodeAPI.move_traverse` sends the move with no range
check at all; and the shadowed first `move_traverse` clamps any feed rate
above 5000 to 5000 and proceeds. -/
theorem c1_clamped_not_rejected :
    (∀ (env : ApiEnv) (rpm : ℚ) (direction : Str), 3000 < rpm →
      GCodeAPI.set_spindle_rpm env rpm direction =
        GCodeAPI.send_gcode env
          (if pyUpper direction = "CW".toList then GCmd.M3 3000 else GCmd.M4 3000)) ∧
    (∀ (s : SpindleController) (rpm : ℚ) (direction : Str), 3000 < rpm →
      (SpindleController.set_rpm s rpm direction).1 = true ∧
      (SpindleController.set_rpm s rpm direction).2.target_rpm = 3000) ∧
    (∀ (env : ApiEnv) (y sp : ℚ),
      GCodeAPI.move_traverse env y (some sp) =
        GCodeAPI.send_gcode env (GCmd.G1 y (some (sp * 60)))) ∧
    (∀ (env : ApiEnv) (pos fr : ℚ), 5000 < fr →
      GCodeAPI.move_traverse_shadowed env pos fr =
        GCodeAPI.send_gcode env (GCmd.G1 pos (some 5000))) := by
  refine ⟨fun env rpm direction h => ?_, fun s rpm direction h => ?_,
    fun env y sp => ?_, fun env pos fr h => ?_⟩
  · simp [GCodeAPI.set_spindle_rpm, pyMin_eq_left (le_of_lt h),
      pyMax_eq_right (show (0 : ℚ) ≤ 3000 by norm_num),
      show (0 : ℚ) < 3000 by norm_num]
  · constructor <;>
      simp [SpindleController.set_rpm, pyMin_eq_left (le_of_lt h),
        pyMax_eq_right (show (0 : ℚ) ≤ 3000 by norm_num),
        show (0 : ℚ) < 3000 by norm_num]
  · rfl
  · simp [GCodeAPI.move_traverse_shadowed, pyMin_eq_left (le_of_lt h),
      pyMax_eq_right (show (10 : ℚ) ≤ 5000 by norm_num)]

/-- C1, witness for the amended claim at concrete inputs. -/
theorem c1_clamped_not_rejected_witness :
    ((3000 : ℚ) < 5000 ∧
      GCodeAPI.set_spindle_rpm ⟨true, true⟩ 5000 "CCW".toList =
        GCodeAPI.send_gcode ⟨true, true⟩
          (if pyUpper "CCW".toList = "CW".toList then GCmd.M3 3000 else GCmd.M4 3000)) ∧
    (GCodeAPI.move_traverse ⟨true, true⟩ 50 (some 1000) =
      GCodeAPI.send_gcode ⟨true, true⟩ (GCmd.G1 50 (some (1000 * 60)))) ∧
    ((5000 : ℚ) < 9000 ∧
      GCodeAPI.move_traverse_shadowed ⟨true, true⟩ 50 9000 =
        GCodeAPI.send_gcode ⟨true, true⟩ (GCmd.G1 50 (some 5000))) :=
  ⟨⟨by decide, c1_clamped_not_rejected.1 ⟨true, true⟩ 5000 "CCW".toList (by decide)⟩,
    c1_clamped_not_rejected.2.2.1 ⟨true, true⟩ 50 1000,
    by decide, c1_clamped_not_rejected.2.2.2 ⟨true, true⟩ 50 9000 (by decide)⟩

/-- C2: with the emergency-stop indicator set, every motion-enqueuing command
of `AdvancedController` — spindle start, traverse move and homing — returns
an error and leaves the whole controller state (including the log of sent
commands and the recorded positions) unchanged. -/
theorem c2_estop_gates_motion (c : AdvancedController) (link : GCmd → Bool)
    (rpm : ℚ) (direction : Str) (pos fr : ℚ) (h : c.emergency_stop = true) :
    AdvancedController.start_spindle c link rpm direction = (false, c) ∧
    AdvancedController.move_traverse c link pos fr = (false, c) ∧
    AdvancedController.home_all_axes c link = (false, c) := by
  refine ⟨?_, ?_, ?_⟩ <;>
    simp [AdvancedController.start_spindle, AdvancedController.move_traverse,
      AdvancedController.home_all_axes, h]

/-- C2, witness at a concrete emergency-stopped controller. -/
theorem c2_estop_gates_motion_witness :
    (({ connected := true, spindle_rpm := 0, spindle_direction := "CW".toList,
        traverse_position := 0, emergency_stop := true, feed_hold := false,
        sent := [] } : AdvancedController).emergency_stop = true) ∧
    (AdvancedController.start_spindle
        { connected := true, spindle_rpm := 0, spindle_direction := "CW".toList,
          traverse_position := 0, emergency_stop := true, feed_hold := false, sent := [] }
        (fun _ => true) 300 "CW".toList =
      (false,
        { connected := true, spindle_rpm := 0, spindle_direction := "CW".toList,
          traverse_position := 0, emergency_stop := true, feed_hold := false, sent := [] }) ∧
      AdvancedController.move_traverse
        { connected := true, spindle_rpm := 0, spindle_direction := "CW".toList,
          traverse_position := 0, emergency_stop := true, feed_hold := false, sent := [] }
        (fun _ => true) 50 1000 =
      (false,
        { connected := true, spindle_rpm := 0, spindle_direction := "CW".toList,
          traverse_position := 0, emergency_stop := true, feed_hold := false, sent := [] }) ∧
      AdvancedController.home_all_axes
        { connected := true, spindle_rpm := 0, spindle_direction := "CW".toList,
          traverse_position := 0, emergency_stop := true, feed_hold := false, sent := [] }
        (fun _ => true) =
      (false,
        { connected := true, spindle_rpm := 0, spindle_direction := "CW".toList,
          traverse_position := 0, emergency_stop := true, feed_hold := false, sent := [] })) :=
  ⟨rfl, c2_estop_gates_motion _ (fun _ => true) 300 "CW".toList 50 1000 rfl⟩

/-- C3: in the safety state machine modelled from the spec, the only command
that can leave `EMERGENCY_STOPPED` is `M999`, it does so only when the
spindle RPM has decayed to at most the tolerance, and an `M999` with a
too-high RPM is rejected leaving the state `EMERGENCY_STOPPED`. -/
theorem c3_estop_exit_only_via_reset (cmd : SafetyCmd) (rpm eps : ℚ) :
    ((safetyStep SafetyState.EMERGENCY_STOPPED cmd rpm eps).1 ≠
        SafetyState.EMERGENCY_STOPPED →
      cmd = SafetyCmd.m999 ∧ rpm ≤ eps ∧
        safetyStep SafetyState.EMERGENCY_STOPPED cmd rpm eps =
          (SafetyState.NORMAL, true)) ∧
    (eps < rpm →
      safetyStep SafetyState.EMERGENCY_STOPPED SafetyCmd.m999 rpm eps =
        (SafetyState.EMERGENCY_STOPPED, false)) := by
  constructor
  · intro h
    cases cmd with
    | m0 => simp [safetyStep] at h
    | m1 => simp [safetyStep] at h
    | m112 => simp [safetyStep] at h
    | m999 =>
      by_cases hle : rpm ≤ eps
      · exact ⟨rfl, hle, by simp [safetyStep, hle]⟩
      · simp [safetyStep, hle] at h
    | other => simp [safetyStep] at h
  · intro h
    simp [safetyStep, not_le.mpr h]

/-- C3, witness: with RPM decayed to 0 the reset succeeds, and with RPM 500
above a tolerance of 1 the reset is rejected. -/
theorem c3_estop_exit_only_via_reset_witness :
    ((safetyStep SafetyState.EMERGENCY_STOPPED SafetyCmd.m999 0 1).1 ≠
        SafetyState.EMERGENCY_STOPPED ∧
      SafetyCmd.m999 = SafetyCmd.m999 ∧ (0 : ℚ) ≤ 1 ∧
        safetyStep SafetyState.EMERGENCY_STOPPED SafetyCmd.m999 0 1 =
          (SafetyState.NORMAL, true)) ∧
    ((1 : ℚ) < 500 ∧
      safetyStep SafetyState.EMERGENCY_STOPPED SafetyCmd.m999 500 1 =
        (SafetyState.EMERGENCY_STOPPED, false)) :=
  ⟨⟨by decide, (c3_estop_exit_only_via_reset SafetyCmd.m999 0 1).1 (by decide)⟩,
    by decide, (c3_estop_exit_only_via_reset SafetyCmd.m999 500 1).2 (by decide)⟩

/-- C4, counterexample: on a freshly constructed controller in feed hold, a
`G1` traverse move is rejected outright — the call returns an error, nothing
is sent (queue depth unchanged), and the recorded position is unchanged — so
the move is not accepted into any queue. -/
theorem c4_feed_hold_move_rejected_counterexample :
    AdvancedController.move_traverse feedHoldController (fun _ => true) 60 1000 =
      (false, feedHoldController) ∧
    feedHoldController.sent = [] := by
  decide

/-- C4, amended: while the feed-hold indicator is set (and no emergency
stop), `AdvancedController.move_traverse` rejects the move outright: it
returns an error and leaves the state — sent-command log and recorded
position included — unchanged. -/
theorem c4_feed_hold_rejects_move (c : AdvancedController) (link : GCmd → Bool)
    (pos fr : ℚ) (he : c.emergency_stop = false) (hf : c.feed_hold = true) :
    AdvancedController.move_traverse c link pos fr = (false, c) := by
  simp [AdvancedController.move_traverse, he, hf]

/-- C4, witness for the amended claim. -/
theorem c4_feed_hold_rejects_move_witness :
    feedHoldController.emergency_stop = false ∧ feedHoldController.feed_hold = true ∧
    AdvancedController.move_traverse feedHoldController (fun _ => false) 60 1000 =
      (false, feedHoldController) :=
  ⟨rfl, rfl, c4_feed_hold_rejects_move feedHoldController (fun _ => false) 60 1000 rfl rfl⟩

/-- C5: invoking `SpindleController.stop` any number of times on an
already-stopped spindle keeps `current_rpm = 0`, `target_rpm = 0` and
`is_running = false`, and the next `stop` still reports success — stop is
idempotent on the spindle state and never errors. -/
theorem c5_stop_idempotent (s : SpindleController) (n : ℕ)
    (h : s.current_rpm = 0 ∧ s.target_rpm = 0 ∧ s.is_running = false) :
    ((SpindleController.stopIter n s).current_rpm = 0 ∧
      (SpindleController.stopIter n s).target_rpm = 0 ∧
      (SpindleController.stopIter n s).is_running = false) ∧
    (SpindleController.stop (SpindleController.stopIter n s)).1 = true := by
  constructor
  · induction n generalizing s with
    | zero => exact h
    | succ n ih => exact ih (SpindleController.stop s).2 (by simp [SpindleController.stop])
  · rfl

/-- C5, witness: three successive stops on a stopped spindle. -/
theorem c5_stop_idempotent_witness :
    (((⟨0, 0, false, "CW".toList, []⟩ : SpindleController).current_rpm = 0 ∧
      (⟨0, 0, false, "CW".toList, []⟩ : SpindleController).target_rpm = 0 ∧
      (⟨0, 0, false, "CW".toList, []⟩ : SpindleController).is_running = false) ∧
    ((SpindleController.stopIter 3 ⟨0, 0, false, "CW".toList, []⟩).current_rpm = 0 ∧
      (SpindleController.stopIter 3 ⟨0, 0, false, "CW".toList, []⟩).target_rpm = 0 ∧
      (SpindleController.stopIter 3 ⟨0, 0, false, "CW".toList, []⟩).is_running = false) ∧
    (SpindleController.stop (SpindleController.stopIter 3 ⟨0, 0, false, "CW".toList, []⟩)).1 =
      true) :=
  ⟨⟨rfl, rfl, rfl⟩, c5_stop_idempotent ⟨0, 0, false, "CW".toList, []⟩ 3 ⟨rfl, rfl, rfl⟩⟩

/-- C6: every RPM read without a valid measurement returns 0 rather than an
error or a stale value: `UARTAPI.get_spindle_rpm` returns 0 whenever the
response has no parseable `RPM:` value, and the spec-modelled firmware
estimator reports 0 whenever no Hall edge arrived within the stall
timeout. -/
theorem c6_rpm_defaults_to_zero :
    (∀ resp, hasParseableRPM resp = false → UARTAPI.get_spindle_rpm resp = 0) ∧
    (∀ (e : SpindleEstimator) (now : ℕ),
      now - e.last_hall_edge_timestamp > e.stall_timeout →
      SpindleEstimator.get_rpm e now = 0) := by
  constructor
  · intro resp h
    cases resp with
    | none => rfl
    | some r =>
      have h2 : (pyIn "RPM:".toList r &&
          (match (do
            let x ← listGet (pySplit [':'] r) 1
            pyFloat x : Except PyErr ℚ) with
           | .ok _ => true
           | .error _ => false)) = false := h
      show (if pyIn "RPM:".toList r then
          ((match (do
            let x ← listGet (pySplit [':'] r) 1
            pyFloat x : Except PyErr ℚ) with
           | .ok q => q
           | .error _ => 0) : ℚ) else 0) = 0
      cases hin : pyIn "RPM:".toList r with
      | false => simp
      | true =>
        rw [hin, Bool.true_and] at h2
        rw [if_pos rfl]
        cases hx : (do
            let x ← listGet (pySplit [':'] r) 1
            pyFloat x : Except PyErr ℚ) with
        | ok q => rw [hx] at h2; exact absurd h2 (by simp)
        | error e => rfl
  · intro e now h
    unfold SpindleEstimator.get_rpm
    rw [if_pos h]

/-- C6, witness: a response without the marker reads as 0, and a stalled
estimator (last edge at tick 0, timeout 1, now 5) reads as 0. -/
theorem c6_rpm_defaults_to_zero_witness :
    (hasParseableRPM (some "NOPE".toList) = false ∧
      UARTAPI.get_spindle_rpm (some "NOPE".toList) = 0) ∧
    (5 - (⟨100, 0, 1⟩ : SpindleEstimator).last_hall_edge_timestamp >
        (⟨100, 0, 1⟩ : SpindleEstimator).stall_timeout ∧
      SpindleEstimator.get_rpm ⟨100, 0, 1⟩ 5 = 0) :=
  ⟨⟨by decide, c6_rpm_defaults_to_zero.1 (some "NOPE".toList) (by decide)⟩,
    by decide, c6_rpm_defaults_to_zero.2 ⟨100, 0, 1⟩ 5 (by decide)⟩

/-- C8: on a freshly constructed `AdvancedController`, the `emergency_stop`
and `feed_hold` booleans assigned in `__init__` shadow the class methods of
the same names, so calling either attribute raises `TypeError`; the class
methods themselves do exist, making these entry points unreachable. -/
theorem c8_boolean_attributes_shadow_methods :
    advancedControllerGetAttr "emergency_stop" = some (PyAttr.pyBool false) ∧
    advancedControllerGetAttr "feed_hold" = some (PyAttr.pyBool false) ∧
    pyCall (advancedControllerGetAttr "emergency_stop") = .error PyErr.typeError ∧
    pyCall (advancedControllerGetAttr "feed_hold") = .error PyErr.typeError ∧
    advancedControllerClassAttr "emergency_stop" = some PyAttr.pyMethod ∧
    advancedControllerClassAttr "feed_hold" = some PyAttr.pyMethod := by
  decide

/-- C9: the single-letter line `G` makes `parse_gcode_command` raise
`IndexError` (and likewise `M`): the G-code line parser is not total on its
string input. -/
theorem c9_parse_gcode_index_error :
    GCodeAPI.parse_gcode_command "G".toList = .error PyErr.indexError ∧
    GCodeAPI.parse_gcode_command "M".toList = .error PyErr.indexError := by
  decide

/-- C10: every requested RPM at most 0 makes `GCodeAPI.set_spindle_rpm` send
the stop command `M5` — never an `M3`/`M4` start and never an error due to
the value. -/
theorem c10_nonpositive_rpm_sends_stop (env : ApiEnv) (rpm : ℚ) (direction : Str)
    (h : rpm ≤ 0) :
    GCodeAPI.set_spindle_rpm env rpm direction = GCodeAPI.send_gcode env GCmd.M5 := by
  simp [GCodeAPI.set_spindle_rpm,
    pyMin_eq_right (le_trans h (show (0 : ℚ) ≤ 3000 by norm_num)), pyMax_eq_left h]

/-- C10, witness at RPM −100. -/
theorem c10_nonpositive_rpm_sends_stop_witness :
    (-100 : ℚ) ≤ 0 ∧
    GCodeAPI.set_spindle_rpm ⟨true, true⟩ (-100) "CW".toList =
      GCodeAPI.send_gcode ⟨true, true⟩ GCmd.M5 :=
  ⟨by decide, c10_nonpositive_rpm_sends_stop ⟨true, true⟩ (-100) "CW".toList (by decide)⟩

/-! ### String lemmas for the STATUS parser -/

theorem isPfx_iff : ∀ (l m : Str), l.isPrefixOf m = true ↔ l <+: m
  | [], m => ⟨fun _ => ⟨m, rfl⟩, fun _ => by cases m <;> rfl⟩
  | a :: l, [] => by
    constructor
    · intro hc; simp [List.isPrefixOf] at hc
    · rintro ⟨t, ht⟩; simp at ht
  | a :: l, b :: m => by
    rw [show (a :: l).isPrefixOf (b :: m) = (a == b && l.isPrefixOf m) from rfl]
    rw [Bool.and_eq_true, beq_iff_eq, isPfx_iff l m]
    constructor
    · rintro ⟨rfl, t, rfl⟩; exact ⟨t, rfl⟩
    · rintro ⟨t, ht⟩; injection ht with h1 h2; exact ⟨h1, t, h2⟩

theorem notPfx_of_head_ne {c d : Char} {t u : Str} (h : c ≠ d) :
    ¬ (d :: t) <+: (c :: u) := by
  rintro ⟨w, hw⟩
  injection hw with h1 h2
  exact h h1.symm

theorem pfx_long {sep a : Str} (s : Str) (hlen : sep.length ≤ a.length)
    (hn : ¬ sep <+: a) : ¬ sep <+: (a ++ s) := by
  rintro ⟨t, ht⟩
  apply hn
  have h1 : (sep ++ t).take sep.length = sep := List.take_left sep t
  rw [ht, List.take_append_of_le_length hlen] at h1
  exact h1 ▸ ⟨a.drop sep.length, List.take_append_drop _ a⟩

theorem pfx_short {sep a : Str} (s : Str) (hlen : a.length ≤ sep.length)
    (hn : ¬ a <+: sep) : ¬ sep <+: (a ++ s) := by
  rintro ⟨t, ht⟩
  apply hn
  have h1 : (a ++ s).take a.length = a := List.take_left a s
  have h2 : (sep ++ t).take a.length = sep.take a.length :=
    List.take_append_of_le_length hlen
  rw [ht, h1] at h2
  exact h2 ▸ ⟨sep.drop a.length, List.take_append_drop _ sep⟩

theorem ns_of_noStart2B {sep a : Str} (s : Str) (h : noStart2B sep a = true) :
    NoStartIn sep a s := by
  intro a₁ a₂ ha hne hpfx
  have hmem : a₂ ∈ a.tails := by
    rw [List.mem_tails]
    exact ⟨a₁, ha.symm⟩
  have hb := List.all_eq_true.mp h a₂ hmem
  cases a₂ with
  | nil => exact hne rfl
  | cons c t =>
    rw [Bool.or_eq_true] at hb
    rcases hb with hb | hb
    · simp [List.isEmpty] at hb
    · by_cases hlen : sep.length ≤ (c :: t).length
      · rw [if_pos hlen, Bool.not_eq_true'] at hb
        exact pfx_long s hlen (fun hp => by rw [(isPfx_iff _ _).mpr hp] at hb; cases hb) hpfx
      · rw [if_neg hlen, Bool.not_eq_true'] at hb
        exact pfx_short s (le_of_not_le hlen)
          (fun hp => by rw [(isPfx_iff _ _).mpr hp] at hb; cases hb) hpfx

theorem ns_of_all_ne {sep a : Str} {d : Char} {sep2 : Str} (hsep : sep = d :: sep2)
    (h : ∀ c ∈ a, c ≠ d) (s : Str) : NoStartIn sep a s := by
  intro a₁ a₂ ha hne hpfx
  cases a₂ with
  | nil => exact hne rfl
  | cons c t =>
    have hc : c ∈ a := by
      rw [ha]
      exact List.mem_append.mpr (Or.inr (List.mem_cons_self c t))
    rw [hsep] at hpfx
    exact notPfx_of_head_ne (h c hc) hpfx

theorem noOcc_of_B {sep s : Str} (h : noOccB sep s = true) : NoOcc sep s := by
  intro a b hab hpfx
  have hmem : b ∈ s.tails := by
    rw [List.mem_tails]
    exact ⟨a, hab.symm⟩
  have hb := List.all_eq_true.mp h b hmem
  rw [Bool.not_eq_true'] at hb
  rw [(isPfx_iff _ _).mpr hpfx] at hb
  cases hb

theorem noOcc_append {sep x y : Str} (h1 : NoStartIn sep x y) (h2 : NoOcc sep y) :
    NoOcc sep (x ++ y) := by
  intro a b hab hpfx
  rcases List.append_eq_append_iff.mp hab with ⟨w, hw1, hw2⟩ | ⟨w, hw1, hw2⟩
  · exact h2 w b hw2 hpfx
  · cases w with
    | nil =>
      simp at hw2
      exact h2 [] y rfl (hw2 ▸ hpfx)
    | cons d w2 =>
      refine h1 a (d :: w2) hw1 (by simp) ?_
      rw [hw2] at hpfx
      exact hpfx

theorem noStartIn_append {sep x y s : Str} (h1 : NoStartIn sep x (y ++ s))
    (h2 : NoStartIn sep y s) : NoStartIn sep (x ++ y) s := by
  intro a₁ a₂ ha hne hpfx
  rcases List.append_eq_append_iff.mp ha with ⟨w, hw1, hw2⟩ | ⟨w, hw1, hw2⟩
  · exact h2 w a₂ hw2 hne hpfx
  · cases w with
    | nil =>
      simp at hw2
      exact h2 [] y rfl (fun hy => hne (by rw [hw2, hy])) (by rw [← hw2]; exact hpfx)
    | cons d w2 =>
      refine h1 a₁ (d :: w2) hw1 (by simp) ?_
      rw [hw2] at hpfx
      simpa [List.append_assoc] using hpfx

theorem numChar_ne {c d : Char} (hc : isNumChar c = true) (hd : isNumChar d = false) :
    c ≠ d := by
  intro he
  rw [he, hd] at hc
  cases hc

theorem numChar_not_ws {c : Char} (hc : isNumChar c = true) : isWs c = false := by
  have hmem : c ∈ ['0', '1', '2', '3', '4', '5', '6', '7', '8', '9', '.'] := by
    rw [isNumChar] at hc
    exact List.mem_of_elem_eq_true hc
  fin_cases hmem <;> rfl

theorem wsFree_append {x y : Str} (h1 : ∀ c ∈ x, isWs c = false)
    (h2 : ∀ c ∈ y, isWs c = false) : ∀ c ∈ x ++ y, isWs c = false :=
  fun c hc => (List.mem_append.mp hc).elim (h1 c) (h2 c)

theorem wsFree_of_all {x : Str} (h : x.all (fun c => !isWs c) = true) :
    ∀ c ∈ x, isWs c = false := by
  intro c hc
  have := List.all_eq_true.mp h c hc
  rw [Bool.not_eq_true'] at this
  exact this

theorem pySplitAuxF_irrel (sep : Str) :
    ∀ (f₁ f₂ : ℕ) (s : Str), s.length ≤ f₁ → s.length ≤ f₂ →
      pySplitAuxF sep f₁ s = pySplitAuxF sep f₂ s := by
  intro f₁
  induction f₁ with
  | zero =>
    intro f₂ s h1 h2
    have hs : s = [] := List.eq_nil_of_length_eq_zero (Nat.le_zero.mp h1)
    subst hs
    cases f₂ <;> rfl
  | succ f ih =>
    intro f₂ s h1 h2
    cases s with
    | nil => cases f₂ <;> rfl
    | cons c rest =>
      cases f₂ with
      | zero => exact absurd h2 (by simp)
      | succ f₂ =>
        simp only [pySplitAuxF]
        have hr : rest.length ≤ f := by simpa using h1
        have hr2 : rest.length ≤ f₂ := by simpa using h2
        have hd : (rest.drop (sep.length - 1)).length ≤ rest.length := by
          rw [List.length_drop]; omega
        by_cases hcond : sep ≠ [] ∧ sep.isPrefixOf (c :: rest)
        · rw [if_pos hcond, if_pos hcond,
            ih f₂ (rest.drop (sep.length - 1)) (le_trans hd hr) (le_trans hd hr2)]
        · rw [if_neg hcond, if_neg hcond, ih f₂ rest hr hr2]

theorem pySplitAux_cons_pos {sep : Str} {c : Char} {rest : Str} (hne : sep ≠ [])
    (hpre : sep.isPrefixOf (c :: rest) = true) :
    pySplitAux sep (c :: rest) =
      ([], (pySplitAux sep (rest.drop (sep.length - 1))).1 ::
        (pySplitAux sep (rest.drop (sep.length - 1))).2) := by
  show pySplitAuxF sep (c :: rest).length (c :: rest) = _
  rw [List.length_cons]
  simp only [pySplitAuxF]
  rw [if_pos ⟨hne, hpre⟩,
    pySplitAuxF_irrel sep rest.length (rest.drop (sep.length - 1)).length
      (rest.drop (sep.length - 1)) (by rw [List.length_drop]; omega) le_rfl]
  rfl

theorem pySplitAux_cons_neg {sep : Str} {c : Char} {rest : Str}
    (h : ¬(sep ≠ [] ∧ sep.isPrefixOf (c :: rest) = true)) :
    pySplitAux sep (c :: rest) =
      (c :: (pySplitAux sep rest).1, (pySplitAux sep rest).2) := by
  show pySplitAuxF sep (c :: rest).length (c :: rest) = _
  rw [List.length_cons]
  simp only [pySplitAuxF]
  rw [if_neg h]
  rfl

theorem pySplitAux_noOcc {sep : Str} (_hsep : sep ≠ []) :
    ∀ {s : Str}, NoOcc sep s → pySplitAux sep s = (s, []) := by
  intro s
  induction s with
  | nil => intro _; rfl
  | cons c rest ih =>
    intro h
    rw [pySplitAux_cons_neg (fun hc =>
      h [] (c :: rest) rfl ((isPfx_iff _ _).mp hc.2))]
    rw [ih (fun a b hab => h (c :: a) b (by rw [hab]; rfl))]

theorem pySplitAux_append {sep : Str} :
    ∀ {a : Str} (s : Str), NoStartIn sep a s →
      pySplitAux sep (a ++ s) = (a ++ (pySplitAux sep s).1, (pySplitAux sep s).2) := by
  intro a
  induction a with
  | nil => intro s _; simp
  | cons c a2 ih =>
    intro s h
    rw [List.cons_append,
      pySplitAux_cons_neg (fun hc =>
        h [] (c :: a2) rfl (by simp) (by
          have := (isPfx_iff _ _).mp hc.2
          rwa [← List.cons_append] at this)),
      ih s (fun a₁ a₂ ha hne => h (c :: a₁) a₂ (by rw [ha]; rfl) hne)]
    rfl

theorem pySplitAux_sep {sep : Str} (hsep : sep ≠ []) (b : Str) :
    pySplitAux sep (sep ++ b) =
      ([], (pySplitAux sep b).1 :: (pySplitAux sep b).2) := by
  cases hs : sep with
  | nil => exact absurd hs hsep
  | cons d sep2 =>
    rw [List.cons_append,
      pySplitAux_cons_pos (by simp) ((isPfx_iff _ _).mpr ⟨b, by rw [List.cons_append]⟩)]
    have hd : (sep2 ++ b).drop ((d :: sep2).length - 1) = b := by
      rw [List.length_cons, Nat.add_sub_cancel, List.drop_left]
    rw [hd]

theorem pySplit_eq_two {sep s A B : Str} (hs : s = A ++ (sep ++ B)) (hsep : sep ≠ [])
    (hA : NoStartIn sep A (sep ++ B)) (hB : NoOcc sep B) :
    pySplit sep s = [A, B] := by
  subst hs
  unfold pySplit
  rw [pySplitAux_append (sep ++ B) hA, pySplitAux_sep hsep, pySplitAux_noOcc hsep hB]
  simp

theorem takeWhile_all {p : Char → Bool} :
    ∀ {a : Str}, (∀ c ∈ a, p c = true) → a.takeWhile p = a := by
  intro a
  induction a with
  | nil => intro _; rfl
  | cons c a2 ih =>
    intro h
    rw [List.takeWhile_cons, if_pos (h c (List.mem_cons_self c a2)),
      ih (fun d hd => h d (List.mem_cons_of_mem c hd))]

theorem dropWhile_all {p : Char → Bool} :
    ∀ {a : Str}, (∀ c ∈ a, p c = true) → a.dropWhile p = [] := by
  intro a
  induction a with
  | nil => intro _; rfl
  | cons c a2 ih =>
    intro h
    rw [List.dropWhile_cons, if_pos (h c (List.mem_cons_self c a2))]
    exact ih (fun d hd => h d (List.mem_cons_of_mem c hd))

theorem takeWhile_append_stop {p : Char → Bool} {x : Char} {b : Str}
    (hx : p x = false) :
    ∀ {a : Str}, (∀ c ∈ a, p c = true) → (a ++ x :: b).takeWhile p = a := by
  intro a
  induction a with
  | nil => intro _; rw [List.nil_append, List.takeWhile_cons, if_neg (by rw [hx]; simp)]
  | cons c a2 ih =>
    intro h
    rw [List.cons_append, List.takeWhile_cons, if_pos (h c (List.mem_cons_self c a2)),
      ih (fun d hd => h d (List.mem_cons_of_mem c hd))]

theorem dropWhile_append_stop {p : Char → Bool} {x : Char} {b : Str}
    (hx : p x = false) :
    ∀ {a : Str}, (∀ c ∈ a, p c = true) → (a ++ x :: b).dropWhile p = x :: b := by
  intro a
  induction a with
  | nil => intro _; rw [List.nil_append, List.dropWhile_cons, if_neg (by rw [hx]; simp)]
  | cons c a2 ih =>
    intro h
    rw [List.cons_append, List.dropWhile_cons, if_pos (h c (List.mem_cons_self c a2))]
    exact ih (fun d hd => h d (List.mem_cons_of_mem c hd))

theorem pySplitWsF_irrel :
    ∀ (f₁ f₂ : ℕ) (s : Str), s.length ≤ f₁ → s.length ≤ f₂ →
      pySplitWsF f₁ s = pySplitWsF f₂ s := by
  intro f₁
  induction f₁ with
  | zero =>
    intro f₂ s h1 h2
    have hs : s = [] := List.eq_nil_of_length_eq_zero (Nat.le_zero.mp h1)
    subst hs
    cases f₂ <;> rfl
  | succ f ih =>
    intro f₂ s h1 h2
    cases s with
    | nil => cases f₂ <;> rfl
    | cons c rest =>
      cases f₂ with
      | zero => exact absurd h2 (by simp)
      | succ f₂ =>
        simp only [pySplitWsF]
        have hr : rest.length ≤ f := by simpa using h1
        have hr2 : rest.length ≤ f₂ := by simpa using h2
        have hd : (rest.dropWhile (fun d => !isWs d)).length ≤ rest.length :=
          (List.dropWhile_sublist _).length_le
        by_cases hw : isWs c = true
        · rw [if_pos hw, if_pos hw, ih f₂ rest hr hr2]
        · rw [if_neg hw, if_neg hw,
            ih f₂ (rest.dropWhile (fun d => !isWs d)) (le_trans hd hr) (le_trans hd hr2)]

theorem pySplitWs_cons_ws {c : Char} {rest : Str} (h : isWs c = true) :
    pySplitWs (c :: rest) = pySplitWs rest := by
  show pySplitWsF (c :: rest).length (c :: rest) = _
  rw [List.length_cons]
  simp only [pySplitWsF]
  rw [if_pos h]
  rfl

theorem pySplitWs_cons_nws {c : Char} {rest : Str} (h : isWs c = false) :
    pySplitWs (c :: rest) =
      (c :: rest.takeWhile (fun d => !isWs d)) ::
        pySplitWs (rest.dropWhile (fun d => !isWs d)) := by
  show pySplitWsF (c :: rest).length (c :: rest) = _
  rw [List.length_cons]
  simp only [pySplitWsF]
  rw [if_neg (by rw [h]; simp),
    pySplitWsF_irrel rest.length (rest.dropWhile (fun d => !isWs d)).length
      (rest.dropWhile (fun d => !isWs d)) (List.dropWhile_sublist _).length_le le_rfl]
  rfl

theorem pySplitWs_token {s a b : Str} (hs : s = a ++ ' ' :: b) (hne : a ≠ [])
    (ha : ∀ c ∈ a, isWs c = false) : pySplitWs s = a :: pySplitWs b := by
  subst hs
  cases a with
  | nil => exact absurd rfl hne
  | cons c a2 =>
    rw [List.cons_append, pySplitWs_cons_nws (ha c (List.mem_cons_self c a2))]
    have hall : ∀ d ∈ a2, (fun d => !isWs d) d = true := fun d hd => by
      simp [ha d (List.mem_cons_of_mem c hd)]
    have hsp : (fun d => !isWs d) ' ' = false := by decide
    rw [takeWhile_append_stop hsp hall, dropWhile_append_stop hsp hall,
      pySplitWs_cons_ws (by decide)]

theorem pySplitWs_single {a : Str} (hne : a ≠ []) (ha : ∀ c ∈ a, isWs c = false) :
    pySplitWs a = [a] := by
  cases a with
  | nil => exact absurd rfl hne
  | cons c a2 =>
    rw [pySplitWs_cons_nws (ha c (List.mem_cons_self c a2))]
    have hall : ∀ d ∈ a2, (fun d => !isWs d) d = true := fun d hd => by
      simp [ha d (List.mem_cons_of_mem c hd)]
    rw [takeWhile_all hall, dropWhile_all hall]
    rfl

theorem pyIn_of_append (sub y : Str) : ∀ (x : Str), pyIn sub (x ++ (sub ++ y)) = true := by
  intro x
  induction x with
  | nil =>
    rw [List.nil_append]
    cases sub with
    | nil =>
      cases y with
      | nil => rfl
      | cons d y2 =>
        show (([] : Str).isPrefixOf (d :: y2) || pyIn [] y2) = true
        rw [(isPfx_iff [] (d :: y2)).mpr ⟨d :: y2, rfl⟩]
        rfl
    | cons d sub2 =>
      show ((d :: sub2).isPrefixOf (d :: (sub2 ++ y)) || pyIn (d :: sub2) (sub2 ++ y)) = true
      rw [(isPfx_iff (d :: sub2) (d :: (sub2 ++ y))).mpr ⟨y, by rw [List.cons_append]⟩]
      rfl
  | cons c x2 ih =>
    rw [List.cons_append]
    show (sub.isPrefixOf (c :: (x2 ++ (sub ++ y))) || pyIn sub (x2 ++ (sub ++ y))) = true
    rw [ih, Bool.or_true]

theorem pyIn_false_of_noOcc {sub : Str} (hsub : sub ≠ []) :
    ∀ {s : Str}, NoOcc sub s → pyIn sub s = false := by
  intro s
  induction s with
  | nil =>
    intro _
    cases sub with
    | nil => exact absurd rfl hsub
    | cons d sub2 => rfl
  | cons c rest ih =>
    intro h
    have h1 : sub.isPrefixOf (c :: rest) = false := by
      cases hp : sub.isPrefixOf (c :: rest) with
      | false => rfl
      | true => exact absurd ((isPfx_iff _ _).mp hp) (h [] (c :: rest) rfl)
    have h2 := ih (fun a b hab => h (c :: a) b (by rw [hab]; rfl))
    show (sub.isPrefixOf (c :: rest) || pyIn sub rest) = false
    rw [h1, h2]
    rfl

set_option maxHeartbeats 1000000 in
/-- Evaluation of the STATUS parser on a well-formed response in the RUN
state, for any decimal numeral fields. -/
theorem c7_run_aux (r p : Str) (qr qp : ℚ)
    (hr : r.all isNumChar = true) (hp : p.all isNumChar = true)
    (hqr : pyFloat r = .ok qr) (hqp : pyFloat p = .ok qp) :
    GCodeAPI.get_machine_status true (some (statusResponse r "RUN".toList p)) =
      .ok (some ⟨some qr, some true, some qp⟩) := by
  have hrn : ∀ c ∈ r, isNumChar c = true := List.all_eq_true.mp hr
  have hpn : ∀ c ∈ p, isNumChar c = true := List.all_eq_true.mp hp
  have hrS : ∀ c ∈ r, c ≠ 'S' := fun c hc => numChar_ne (hrn c hc) (by decide)
  have hpS : ∀ c ∈ p, c ≠ 'S' := fun c hc => numChar_ne (hpn c hc) (by decide)
  have hrR : ∀ c ∈ r, c ≠ 'R' := fun c hc => numChar_ne (hrn c hc) (by decide)
  have hrT : ∀ c ∈ r, c ≠ 'T' := fun c hc => numChar_ne (hrn c hc) (by decide)
  have hpT : ∀ c ∈ p, c ≠ 'T' := fun c hc => numChar_ne (hpn c hc) (by decide)
  have hpm : ∀ c ∈ p, c ≠ 'm' := fun c hc => numChar_ne (hpn c hc) (by decide)
  have hrw : ∀ c ∈ r, isWs c = false := fun c hc => numChar_not_ws (hrn c hc)
  have hpw : ∀ c ∈ p, isWs c = false := fun c hc => numChar_not_ws (hpn c hc)
  -- the response decomposed at the Spindle= marker
  have hR1 : statusResponse r "RUN".toList p =
      "STATUS: ".toList ++ ("Spindle=".toList ++
        (r ++ ("RPM".toList ++ ("(".toList ++ ("RUN".toList ++ (")".toList ++
          (" ".toList ++ ("Traverse=".toList ++ (p ++ "mm".toList))))))))) := by
    simp [statusResponse, List.append_assoc]
  have hstart : ("STATUS:".toList).isPrefixOf (statusResponse r "RUN".toList p) = true := by
    have h0 : statusResponse r "RUN".toList p =
        "STATUS:".toList ++ (" ".toList ++ ("Spindle=".toList ++
          (r ++ ("RPM".toList ++ ("(".toList ++ ("RUN".toList ++ (")".toList ++
            (" ".toList ++ ("Traverse=".toList ++ (p ++ "mm".toList)))))))))) := by
      simp [statusResponse, List.append_assoc,
        (by decide : ("STATUS: ".toList : Str) = "STATUS:".toList ++ " ".toList)]
    exact (isPfx_iff _ _).mpr ⟨_, h0.symm⟩
  have hnoccT : NoOcc "Spindle=".toList
      (r ++ ("RPM".toList ++ ("(".toList ++ ("RUN".toList ++ (")".toList ++
        (" ".toList ++ ("Traverse=".toList ++ (p ++ "mm".toList)))))))) := by
    refine noOcc_append (ns_of_all_ne
      (by decide : ("Spindle=".toList : Str) = 'S' :: "pindle=".toList) hrS _) ?_
    refine noOcc_append (ns_of_noStart2B _ (by decide)) ?_
    refine noOcc_append (ns_of_noStart2B _ (by decide)) ?_
    refine noOcc_append (ns_of_noStart2B _ (by decide)) ?_
    refine noOcc_append (ns_of_noStart2B _ (by decide)) ?_
    refine noOcc_append (ns_of_noStart2B _ (by decide)) ?_
    refine noOcc_append (ns_of_noStart2B _ (by decide)) ?_
    refine noOcc_append (ns_of_all_ne
      (by decide : ("Spindle=".toList : Str) = 'S' :: "pindle=".toList) hpS _) ?_
    exact noOcc_of_B (by decide)
  have hin_sp : pyIn "Spindle=".toList (statusResponse r "RUN".toList p) = true := by
    rw [hR1]; exact pyIn_of_append _ _ _
  have hsplit_sp : pySplit "Spindle=".toList (statusResponse r "RUN".toList p) =
      ["STATUS: ".toList,
        r ++ ("RPM".toList ++ ("(".toList ++ ("RUN".toList ++ (")".toList ++
          (" ".toList ++ ("Traverse=".toList ++ (p ++ "mm".toList)))))))] :=
    pySplit_eq_two hR1 (by decide) (ns_of_noStart2B _ (by decide)) hnoccT
  -- the first whitespace token of the Spindle part
  have hws : pySplitWs (r ++ ("RPM".toList ++ ("(".toList ++ ("RUN".toList ++ (")".toList ++
        (" ".toList ++ ("Traverse=".toList ++ (p ++ "mm".toList)))))))) =
      (r ++ ("RPM".toList ++ ("(".toList ++ ("RUN".toList ++ ")".toList)))) ::
        pySplitWs ("Traverse=".toList ++ (p ++ "mm".toList)) := by
    refine pySplitWs_token ?_ ?_ ?_
    · simp [List.append_assoc, (by decide : (" ".toList : Str) = [' '])]
    · simp
    · refine wsFree_append hrw (wsFree_append (wsFree_of_all (by decide))
        (wsFree_append (wsFree_of_all (by decide))
          (wsFree_append (wsFree_of_all (by decide)) (wsFree_of_all (by decide)))))
  have hin_rpm : pyIn "RPM".toList
      (r ++ ("RPM".toList ++ ("(".toList ++ ("RUN".toList ++ ")".toList)))) = true :=
    pyIn_of_append _ _ _
  have hsplit_rpm : pySplit "RPM".toList
      (r ++ ("RPM".toList ++ ("(".toList ++ ("RUN".toList ++ ")".toList)))) =
      [r, "(".toList ++ ("RUN".toList ++ ")".toList)] :=
    pySplit_eq_two rfl (by decide)
      (ns_of_all_ne (by decide : ("RPM".toList : Str) = 'R' :: "PM".toList) hrR _)
      (noOcc_of_B (by decide))
  have hin_run : pyIn "RUN".toList
      (r ++ ("RPM".toList ++ ("(".toList ++ ("RUN".toList ++ ")".toList)))) = true := by
    have h0 : (r ++ ("RPM".toList ++ ("(".toList ++ ("RUN".toList ++ ")".toList))) : Str) =
        (r ++ ("RPM".toList ++ "(".toList)) ++ ("RUN".toList ++ ")".toList) := by
      simp [List.append_assoc]
    rw [h0]; exact pyIn_of_append _ _ _
  -- the Traverse= marker
  have hR2 : statusResponse r "RUN".toList p =
      ("STATUS: ".toList ++ ("Spindle=".toList ++ (r ++ ("RPM".toList ++ ("(".toList ++
        ("RUN".toList ++ (")".toList ++ " ".toList))))))) ++
        ("Traverse=".toList ++ (p ++ "mm".toList)) := by
    simp [statusResponse, List.append_assoc]
  have hin_tr : pyIn "Traverse=".toList (statusResponse r "RUN".toList p) = true := by
    rw [hR2]; exact pyIn_of_append _ _ _
  have hsplit_tr : pySplit "Traverse=".toList (statusResponse r "RUN".toList p) =
      ["STATUS: ".toList ++ ("Spindle=".toList ++ (r ++ ("RPM".toList ++ ("(".toList ++
          ("RUN".toList ++ (")".toList ++ " ".toList)))))),
        p ++ "mm".toList] := by
    refine pySplit_eq_two hR2 (by decide) ?_ ?_
    · refine noStartIn_append (ns_of_noStart2B _ (by decide)) ?_
      refine noStartIn_append (ns_of_noStart2B _ (by decide)) ?_
      refine noStartIn_append (ns_of_all_ne
        (by decide : ("Traverse=".toList : Str) = 'T' :: "raverse=".toList) hrT _) ?_
      refine noStartIn_append (ns_of_noStart2B _ (by decide)) ?_
      refine noStartIn_append (ns_of_noStart2B _ (by decide)) ?_
      refine noStartIn_append (ns_of_noStart2B _ (by decide)) ?_
      refine noStartIn_append (ns_of_noStart2B _ (by decide)) (ns_of_noStart2B _ (by decide))
    · exact noOcc_append (ns_of_all_ne
        (by decide : ("Traverse=".toList : Str) = 'T' :: "raverse=".toList) hpT _)
        (noOcc_of_B (by decide))
  have hws2 : pySplitWs (p ++ "mm".toList) = [p ++ "mm".toList] := by
    refine pySplitWs_single (by simp) (wsFree_append hpw (wsFree_of_all (by decide)))
  have hin_mm : pyIn "mm".toList (p ++ "mm".toList) = true := by
    have h0 : (p ++ "mm".toList : Str) = p ++ ("mm".toList ++ []) := by simp
    rw [h0]; exact pyIn_of_append _ _ _
  have hsplit_mm : pySplit "mm".toList (p ++ "mm".toList) = [p, []] := by
    refine pySplit_eq_two (by simp) (by decide)
      (ns_of_all_ne (by decide : ("mm".toList : Str) = 'm' :: "m".toList) hpm _)
      (noOcc_of_B (by decide))
  have hget_sp : listGet (pySplit "Spindle=".toList (statusResponse r "RUN".toList p)) 1 =
      .ok (r ++ ("RPM".toList ++ ("(".toList ++ ("RUN".toList ++ (")".toList ++
        (" ".toList ++ ("Traverse=".toList ++ (p ++ "mm".toList)))))))) := by
    rw [hsplit_sp]; rfl
  have hget_ws : listGet (pySplitWs (r ++ ("RPM".toList ++ ("(".toList ++ ("RUN".toList ++
      (")".toList ++ (" ".toList ++ ("Traverse=".toList ++ (p ++ "mm".toList))))))))) 0 =
      .ok (r ++ ("RPM".toList ++ ("(".toList ++ ("RUN".toList ++ ")".toList)))) := by
    rw [hws]; rfl
  have hget_rpm : listGet (pySplit "RPM".toList
      (r ++ ("RPM".toList ++ ("(".toList ++ ("RUN".toList ++ ")".toList))))) 0 = .ok r := by
    rw [hsplit_rpm]; rfl
  have hget_tr : listGet (pySplit "Traverse=".toList (statusResponse r "RUN".toList p)) 1 =
      .ok (p ++ "mm".toList) := by
    rw [hsplit_tr]; rfl
  have hget_ws2 : listGet (pySplitWs (p ++ "mm".toList)) 0 = .ok (p ++ "mm".toList) := by
    rw [hws2]; rfl
  have hget_mm : listGet (pySplit "mm".toList (p ++ "mm".toList)) 0 = .ok p := by
    rw [hsplit_mm]; rfl
  simp only [GCodeAPI.get_machine_status, hstart, hin_sp, hget_sp, hget_ws, hin_rpm,
    hget_rpm, hqr, hin_run, hin_tr, hget_tr, hget_ws2, hin_mm, hget_mm, hqp,
    Except.instMonad, Except.bind, Except.pure,
    if_true, Bool.true_eq_false, if_false, ite_true, ite_false]

set_option maxHeartbeats 1000000 in
/-- Evaluation of the STATUS parser on a well-formed response in the STOP
state, for any decimal numeral fields. -/
theorem c7_stop_aux (r p : Str) (qr qp : ℚ)
    (hr : r.all isNumChar = true) (hp : p.all isNumChar = true)
    (hqr : pyFloat r = .ok qr) (hqp : pyFloat p = .ok qp) :
    GCodeAPI.get_machine_status true (some (statusResponse r "STOP".toList p)) =
      .ok (some ⟨some qr, some false, some qp⟩) := by
  have hrn : ∀ c ∈ r, isNumChar c = true := List.all_eq_true.mp hr
  have hpn : ∀ c ∈ p, isNumChar c = true := List.all_eq_true.mp hp
  have hrS : ∀ c ∈ r, c ≠ 'S' := fun c hc => numChar_ne (hrn c hc) (by decide)
  have hpS : ∀ c ∈ p, c ≠ 'S' := fun c hc => numChar_ne (hpn c hc) (by decide)
  have hrR : ∀ c ∈ r, c ≠ 'R' := fun c hc => numChar_ne (hrn c hc) (by decide)
  have hrT : ∀ c ∈ r, c ≠ 'T' := fun c hc => numChar_ne (hrn c hc) (by decide)
  have hpT : ∀ c ∈ p, c ≠ 'T' := fun c hc => numChar_ne (hpn c hc) (by decide)
  have hpm : ∀ c ∈ p, c ≠ 'm' := fun c hc => numChar_ne (hpn c hc) (by decide)
  have hrw : ∀ c ∈ r, isWs c = false := fun c hc => numChar_not_ws (hrn c hc)
  have hpw : ∀ c ∈ p, isWs c = false := fun c hc => numChar_not_ws (hpn c hc)
  -- the response decomposed at the Spindle= marker
  have hR1 : statusResponse r "STOP".toList p =
      "STATUS: ".toList ++ ("Spindle=".toList ++
        (r ++ ("RPM".toList ++ ("(".toList ++ ("STOP".toList ++ (")".toList ++
          (" ".toList ++ ("Traverse=".toList ++ (p ++ "mm".toList))))))))) := by
    simp [statusResponse, List.append_assoc]
  have hstart : ("STATUS:".toList).isPrefixOf (statusResponse r "STOP".toList p) = true := by
    have h0 : statusResponse r "STOP".toList p =
        "STATUS:".toList ++ (" ".toList ++ ("Spindle=".toList ++
          (r ++ ("RPM".toList ++ ("(".toList ++ ("STOP".toList ++ (")".toList ++
            (" ".toList ++ ("Traverse=".toList ++ (p ++ "mm".toList)))))))))) := by
      simp [statusResponse, List.append_assoc,
        (by decide : ("STATUS: ".toList : Str) = "STATUS:".toList ++ " ".toList)]
    exact (isPfx_iff _ _).mpr ⟨_, h0.symm⟩
  have hnoccT : NoOcc "Spindle=".toList
      (r ++ ("RPM".toList ++ ("(".toList ++ ("STOP".toList ++ (")".toList ++
        (" ".toList ++ ("Traverse=".toList ++ (p ++ "mm".toList)))))))) := by
    refine noOcc_append (ns_of_all_ne
      (by decide : ("Spindle=".toList : Str) = 'S' :: "pindle=".toList) hrS _) ?_
    refine noOcc_append (ns_of_noStart2B _ (by decide)) ?_
    refine noOcc_append (ns_of_noStart2B _ (by decide)) ?_
    refine noOcc_append (ns_of_noStart2B _ (by decide)) ?_
    refine noOcc_append (ns_of_noStart2B _ (by decide)) ?_
    refine noOcc_append (ns_of_noStart2B _ (by decide)) ?_
    refine noOcc_append (ns_of_noStart2B _ (by decide)) ?_
    refine noOcc_append (ns_of_all_ne
      (by decide : ("Spindle=".toList : Str) = 'S' :: "pindle=".toList) hpS _) ?_
    exact noOcc_of_B (by decide)
  have hin_sp : pyIn "Spindle=".toList (statusResponse r "STOP".toList p) = true := by
    rw [hR1]; exact pyIn_of_append _ _ _
  have hsplit_sp : pySplit "Spindle=".toList (statusResponse r "STOP".toList p) =
      ["STATUS: ".toList,
        r ++ ("RPM".toList ++ ("(".toList ++ ("STOP".toList ++ (")".toList ++
          (" ".toList ++ ("Traverse=".toList ++ (p ++ "mm".toList)))))))] :=
    pySplit_eq_two hR1 (by decide) (ns_of_noStart2B _ (by decide)) hnoccT
  -- the first whitespace token of the Spindle part
  have hws : pySplitWs (r ++ ("RPM".toList ++ ("(".toList ++ ("STOP".toList ++ (")".toList ++
        (" ".toList ++ ("Traverse=".toList ++ (p ++ "mm".toList)))))))) =
      (r ++ ("RPM".toList ++ ("(".toList ++ ("STOP".toList ++ ")".toList)))) ::
        pySplitWs ("Traverse=".toList ++ (p ++ "mm".toList)) := by
    refine pySplitWs_token ?_ ?_ ?_
    · simp [List.append_assoc, (by decide : (" ".toList : Str) = [' '])]
    · simp
    · refine wsFree_append hrw (wsFree_append (wsFree_of_all (by decide))
        (wsFree_append (wsFree_of_all (by decide))
          (wsFree_append (wsFree_of_all (by decide)) (wsFree_of_all (by decide)))))
  have hin_rpm : pyIn "RPM".toList
      (r ++ ("RPM".toList ++ ("(".toList ++ ("STOP".toList ++ ")".toList)))) = true :=
    pyIn_of_append _ _ _
  have hsplit_rpm : pySplit "RPM".toList
      (r ++ ("RPM".toList ++ ("(".toList ++ ("STOP".toList ++ ")".toList)))) =
      [r, "(".toList ++ ("STOP".toList ++ ")".toList)] :=
    pySplit_eq_two rfl (by decide)
      (ns_of_all_ne (by decide : ("RPM".toList : Str) = 'R' :: "PM".toList) hrR _)
      (noOcc_of_B (by decide))
  have hin_run : pyIn "RUN".toList
      (r ++ ("RPM".toList ++ ("(".toList ++ ("STOP".toList ++ ")".toList)))) = false := by
    refine pyIn_false_of_noOcc (by decide) ?_
    exact noOcc_append (ns_of_all_ne
      (by decide : ("RUN".toList : Str) = 'R' :: "UN".toList) hrR _)
      (noOcc_of_B (by decide))
  have hin_stop : pyIn "STOP".toList
      (r ++ ("RPM".toList ++ ("(".toList ++ ("STOP".toList ++ ")".toList)))) = true := by
    have h0 : (r ++ ("RPM".toList ++ ("(".toList ++ ("STOP".toList ++ ")".toList))) : Str) =
        (r ++ ("RPM".toList ++ "(".toList)) ++ ("STOP".toList ++ ")".toList) := by
      simp [List.append_assoc]
    rw [h0]; exact pyIn_of_append _ _ _
  -- the Traverse= marker
  have hR2 : statusResponse r "STOP".toList p =
      ("STATUS: ".toList ++ ("Spindle=".toList ++ (r ++ ("RPM".toList ++ ("(".toList ++
        ("STOP".toList ++ (")".toList ++ " ".toList))))))) ++
        ("Traverse=".toList ++ (p ++ "mm".toList)) := by
    simp [statusResponse, List.append_assoc]
  have hin_tr : pyIn "Traverse=".toList (statusResponse r "STOP".toList p) = true := by
    rw [hR2]; exact pyIn_of_append _ _ _
  have hsplit_tr : pySplit "Traverse=".toList (statusResponse r "STOP".toList p) =
      ["STATUS: ".toList ++ ("Spindle=".toList ++ (r ++ ("RPM".toList ++ ("(".toList ++
          ("STOP".toList ++ (")".toList ++ " ".toList)))))),
        p ++ "mm".toList] := by
    refine pySplit_eq_two hR2 (by decide) ?_ ?_
    · refine noStartIn_append (ns_of_noStart2B _ (by decide)) ?_
      refine noStartIn_append (ns_of_noStart2B _ (by decide)) ?_
      refine noStartIn_append (ns_of_all_ne
        (by decide : ("Traverse=".toList : Str) = 'T' :: "raverse=".toList) hrT _) ?_
      refine noStartIn_append (ns_of_noStart2B _ (by decide)) ?_
      refine noStartIn_append (ns_of_noStart2B _ (by decide)) ?_
      refine noStartIn_append (ns_of_noStart2B _ (by decide)) ?_
      refine noStartIn_append (ns_of_noStart2B _ (by decide)) (ns_of_noStart2B _ (by decide))
    · exact noOcc_append (ns_of_all_ne
        (by decide : ("Traverse=".toList : Str) = 'T' :: "raverse=".toList) hpT _)
        (noOcc_of_B (by decide))
  have hws2 : pySplitWs (p ++ "mm".toList) = [p ++ "mm".toList] := by
    refine pySplitWs_single (by simp) (wsFree_append hpw (wsFree_of_all (by decide)))
  have hin_mm : pyIn "mm".toList (p ++ "mm".toList) = true := by
    have h0 : (p ++ "mm".toList : Str) = p ++ ("mm".toList ++ []) := by simp
    rw [h0]; exact pyIn_of_append _ _ _
  have hsplit_mm : pySplit "mm".toList (p ++ "mm".toList) = [p, []] := by
    refine pySplit_eq_two (by simp) (by decide)
      (ns_of_all_ne (by decide : ("mm".toList : Str) = 'm' :: "m".toList) hpm _)
      (noOcc_of_B (by decide))
  have hget_sp : listGet (pySplit "Spindle=".toList (statusResponse r "STOP".toList p)) 1 =
      .ok (r ++ ("RPM".toList ++ ("(".toList ++ ("STOP".toList ++ (")".toList ++
        (" ".toList ++ ("Traverse=".toList ++ (p ++ "mm".toList)))))))) := by
    rw [hsplit_sp]; rfl
  have hget_ws : listGet (pySplitWs (r ++ ("RPM".toList ++ ("(".toList ++ ("STOP".toList ++
      (")".toList ++ (" ".toList ++ ("Traverse=".toList ++ (p ++ "mm".toList))))))))) 0 =
      .ok (r ++ ("RPM".toList ++ ("(".toList ++ ("STOP".toList ++ ")".toList)))) := by
    rw [hws]; rfl
  have hget_rpm : listGet (pySplit "RPM".toList
      (r ++ ("RPM".toList ++ ("(".toList ++ ("STOP".toList ++ ")".toList))))) 0 = .ok r := by
    rw [hsplit_rpm]; rfl
  have hget_tr : listGet (pySplit "Traverse=".toList (statusResponse r "STOP".toList p)) 1 =
      .ok (p ++ "mm".toList) := by
    rw [hsplit_tr]; rfl
  have hget_ws2 : listGet (pySplitWs (p ++ "mm".toList)) 0 = .ok (p ++ "mm".toList) := by
    rw [hws2]; rfl
  have hget_mm : listGet (pySplit "mm".toList (p ++ "mm".toList)) 0 = .ok p := by
    rw [hsplit_mm]; rfl
  simp only [GCodeAPI.get_machine_status, hstart, hin_sp, hget_sp, hget_ws, hin_rpm,
    hget_rpm, hqr, hin_run, hin_stop, hin_tr, hget_tr, hget_ws2, hin_mm, hget_mm, hqp,
    Except.instMonad, Except.bind, Except.pure,
    if_true, Bool.true_eq_false, Bool.false_eq_true, if_false, ite_true, ite_false]

/-- C7: for every STATUS response line of the fixed form
`STATUS: Spindle=<rpm>RPM(<RUN|STOP>) Traverse=<pos>mm` with decimal numeral
fields, `GCodeAPI.get_machine_status` returns a record whose `spindle_rpm` is
the parsed numeric value of the rpm field, whose `spindle_running` is true
exactly when the run-state field is `RUN`, and whose `traverse_position` is
the parsed numeric value of the position field. -/
theorem c7_status_parser_correct (r rs p : Str) (b : Bool) (qr qp : ℚ)
    (hr : r.all isNumChar = true) (hp : p.all isNumChar = true)
    (hqr : pyFloat r = .ok qr) (hqp : pyFloat p = .ok qp)
    (hrs : (rs = "RUN".toList ∧ b = true) ∨ (rs = "STOP".toList ∧ b = false)) :
    GCodeAPI.get_machine_status true (some (statusResponse r rs p)) =
      .ok (some ⟨some qr, some b, some qp⟩) := by
  rcases hrs with ⟨rfl, rfl⟩ | ⟨rfl, rfl⟩
  · exact c7_run_aux r p qr qp hr hp hqr hqp
  · exact c7_stop_aux r p qr qp hr hp hqr hqp

/-- C7, witness: the documented example line
`STATUS: Spindle=120.5RPM(RUN) Traverse=25.3mm`. -/
theorem c7_status_parser_correct_witness :
    ("120.5".toList.all isNumChar = true ∧ "25.3".toList.all isNumChar = true ∧
      pyFloat "120.5".toList = .ok (mkRat 241 2) ∧
      pyFloat "25.3".toList = .ok (mkRat 253 10)) ∧
    GCodeAPI.get_machine_status true
        (some (statusResponse "120.5".toList "RUN".toList "25.3".toList)) =
      .ok (some ⟨some (mkRat 241 2), some true, some (mkRat 253 10)⟩) :=
  ⟨⟨by decide, by decide, by decide, by decide⟩,
    c7_status_parser_correct "120.5".toList "RUN".toList "25.3".toList true
      (mkRat 241 2) (mkRat 253 10) (by decide) (by decide) (by decide) (by decide)
      (Or.inl ⟨rfl, rfl⟩)⟩
